import Mathlib

/-!
Verification of the noise-libp2p handshake orchestrator
(`p2p/security/noise/handshake.go`).

The file embeds the five functions of `handshake.go` — `runHandshake`,
`setCipherStates`, `sendHandshakeMessage`, `readHandshakeMessage`,
`generateHandshakePayload`, `handleRemoteHandshakePayload` — as executable
Lean functions.  External collaborators (the flynn/noise crypto engine, the
libp2p identity-key service, the protobuf codec and the insecure framed
transport) are supplied by an `Env` record of functions, so theorems
quantified over `Env` cover every behaviour of those collaborators.  A
ghost event trace records key generation, signing, signature verification
and the send/receive sequence, which lets ordering claims be stated.
-/

namespace Noise

/-- Byte strings (Go `[]byte`), modelled as lists of naturals. -/
abbrev Bytes := List Nat

/-- A libp2p peer identifier (Go `peer.ID`, a string).  The Go zero value
`""` — used when no expected remote peer is supplied — is the empty list. -/
abbrev PeerID := Bytes

/-- An opaque handle to a libp2p public key (Go `crypto.PubKey`). -/
abbrev PubKey := Nat

/-- An opaque handle to a libp2p private key (Go `crypto.PrivKey`). -/
abbrev PrivKey := Nat

/-- The state of the insecure transport connection, threaded explicitly. -/
abbrev TR := Nat

/-- A Diffie-Hellman keypair (flynn/noise `noise.DHKey`). -/
structure DHKey where
  Private : Bytes
  Public : Bytes
deriving DecidableEq

/-- An opaque symmetric cipher state (flynn/noise `noise.CipherState`). -/
structure CipherState where
  id : Nat
deriving DecidableEq

/-- Go `error` values as produced by `handshake.go`.  `ext` is an error
coming from an external collaborator; `wrap tag cause` is
`fmt.Errorf(tag + ": %w", cause)`; `peerIDMismatch` and `sigInvalid` are the
two `fmt.Errorf` sites of `handleRemoteHandshakePayload` that create fresh
errors ("peer id mismatch: expected %s, but remote key matches %s" and
"handshake signature invalid"). -/
inductive Err where
  | ext (code : Nat)
  | wrap (tag : String) (cause : Err)
  | peerIDMismatch (expected found : PeerID)
  | sigInvalid
deriving DecidableEq

/-- The protobuf message `pb.NoiseHandshakePayload`. -/
structure NoiseHandshakePayload where
  identityKey : Bytes
  identitySig : Bytes
deriving DecidableEq

/-- Ghost trace events recorded by the embedding: ephemeral key generation,
identity-key signing (with the exact message signed), a framed handshake
message sent (with the payload argument passed to the engine), a framed
handshake message received, entry into remote-payload handling (with the
remote static key argument), and signature verification (with the exact
message checked). -/
inductive Event where
  | genKeypair
  | sign (msg : Bytes)
  | send (payload : Bytes)
  | recv
  | handleRemote (remoteStatic : Bytes)
  | verifySig (msg : Bytes)
deriving DecidableEq

/-- The fields of Go `secureSession` that `handshake.go` reads or writes.
`remoteID` on entry is the expected remote peer id (`""`, i.e. `[]`, when
none was supplied); `remoteKey`, `enc`, `dec` are nil pointers on entry,
hence `Option`. -/
structure secureSession where
  initiator : Bool
  localKey : PrivKey
  localPub : PubKey
  remoteID : PeerID
  remoteKey : Option PubKey
  enc : Option CipherState
  dec : Option CipherState
deriving DecidableEq

/-- The constant `payloadSigPrefix = "noise-libp2p-static-key:"`, as bytes. -/
def payloadSigPrefixBytes : Bytes := "noise-libp2p-static-key:".toList.map Char.toNat

/-- Opaque tag for the fixed cipher suite (DH25519, ChaChaPoly, SHA256). -/
def cipherSuite : Nat := 25519

/-- Opaque tag for the fixed `noise.HandshakeXX` pattern. -/
def handshakeXX : Nat := 0

/-- flynn/noise `noise.Config` as built by `runHandshake`. -/
structure Config where
  CipherSuite : Nat
  Pattern : Nat
  Initiator : Bool
  StaticKeypair : DHKey
deriving DecidableEq

/-- Modelled from the spec: the external crypto engine's handshake state
(flynn/noise `noise.HandshakeState`, not part of this repository).  Per the
spec, the engine processes the 3 messages of the XX pattern in order and
yields the cipher-state pair exactly when the final (third) message is
processed; `idx` counts the messages this handle has processed so far. -/
structure HandshakeState where
  initiator : Bool
  idx : Nat
deriving DecidableEq

/-- The external collaborators, as a record of (pure, fallible) functions:
ephemeral key generation, engine initialization failure injection, the
engine's per-message output (`writeF`/`readF`), the cipher-state pair the
engine yields on transcript completion, the engine-reported remote
ephemeral static key after `n` messages, the insecure framed transport,
and the identity-key service plus protobuf codec.  Encoding
(`protoMarshal`) is total, per the spec's codec contract. -/
structure Env where
  generateKeypair : Except Err DHKey
  hsInitErr : Config → Option Err
  writeF : Nat → Bytes → Except Err Bytes
  readF : Nat → Bytes → Except Err Bytes
  csPair : CipherState × CipherState
  peerStaticOf : Nat → Bytes
  writeMsgInsecure : TR → Bytes → Except Err TR
  readMsgInsecure : TR → Except Err (TR × Bytes)
  pubKeyBytes : PubKey → Except Err Bytes
  sign : PrivKey → Bytes → Except Err Bytes
  verify : PubKey → Bytes → Bytes → Except Err Bool
  unmarshalPublicKey : Bytes → Except Err PubKey
  idFromPublicKey : PubKey → Except Err PeerID
  protoMarshal : NoiseHandshakePayload → Bytes
  protoUnmarshal : Bytes → Except Err NoiseHandshakePayload

/-- Modelled from the spec: `noise.NewHandshakeState(cfg)` — engine
initialization, which may fail, and otherwise returns a fresh handle that
has processed no messages yet. -/
def newHandshakeState (env : Env) (cfg : Config) : Except Err HandshakeState :=
  match env.hsInitErr cfg with
  | some e => .error e
  | none => .ok { initiator := cfg.Initiator, idx := 0 }

/-- Modelled from the spec: `hs.WriteMessage(nil, payload)` — produces the
wire bytes for the next handshake message and, exactly on the third message
processed by this handle, the cipher-state pair. -/
def engineWriteMessage (env : Env) (h : HandshakeState) (payload : Bytes) :
    Except Err (HandshakeState × Bytes × Option CipherState × Option CipherState) :=
  match env.writeF h.idx payload with
  | .error e => .error e
  | .ok buf =>
      if h.idx + 1 = 3 then
        .ok ({ h with idx := h.idx + 1 }, buf, some env.csPair.1, some env.csPair.2)
      else
        .ok ({ h with idx := h.idx + 1 }, buf, none, none)

/-- Modelled from the spec: `hs.ReadMessage(nil, raw)` — decrypts/processes
an incoming handshake message, returning its plaintext payload and, exactly
on the third message processed by this handle, the cipher-state pair. -/
def engineReadMessage (env : Env) (h : HandshakeState) (raw : Bytes) :
    Except Err (HandshakeState × Bytes × Option CipherState × Option CipherState) :=
  match env.readF h.idx raw with
  | .error e => .error e
  | .ok msg =>
      if h.idx + 1 = 3 then
        .ok ({ h with idx := h.idx + 1 }, msg, some env.csPair.1, some env.csPair.2)
      else
        .ok ({ h with idx := h.idx + 1 }, msg, none, none)

/-- Modelled from the spec: `hs.PeerStatic()` — the engine-reported remote
ephemeral static public key at the handle's current progress. -/
def peerStatic (env : Env) (h : HandshakeState) : Bytes := env.peerStaticOf h.idx

/-- `setCipherStates` (handshake.go:103-111): role-dependent assignment of
the engine's ordered cipher-state pair to the session's `enc`/`dec`. -/
def setCipherStates (s : secureSession) (cs1 cs2 : CipherState) : secureSession :=
  if s.initiator then { s with enc := some cs1, dec := some cs2 }
  else { s with enc := some cs2, dec := some cs1 }

/-- Result of `sendHandshakeMessage`: emitted trace events, the session and
engine handle and transport state after the call, and the Go error. -/
structure SendResult where
  evs : List Event
  sess : secureSession
  hs : HandshakeState
  tr : TR
  err : Option Err
deriving DecidableEq

/-- `sendHandshakeMessage` (handshake.go:118-133): engine `WriteMessage`,
then the insecure transport write, then — only if the engine returned both
cipher states — `setCipherStates`.  A `.send payload` event is emitted once
the message is on the wire. -/
def sendHandshakeMessage (env : Env) (s : secureSession) (h : HandshakeState)
    (tr : TR) (payload : Bytes) : SendResult :=
  match engineWriteMessage env h payload with
  | .error e => ⟨[], s, h, tr, some e⟩
  | .ok (h2, buf, cs1, cs2) =>
      match env.writeMsgInsecure tr buf with
      | .error e => ⟨[], s, h2, tr, some e⟩
      | .ok tr2 =>
          match cs1, cs2 with
          | some c1, some c2 => ⟨[Event.send payload], setCipherStates s c1 c2, h2, tr2, none⟩
          | _, _ => ⟨[Event.send payload], s, h2, tr2, none⟩

/-- Result of `readHandshakeMessage`: emitted trace events, updated states,
and either the decrypted plaintext or the Go error. -/
structure ReadResult where
  evs : List Event
  sess : secureSession
  hs : HandshakeState
  tr : TR
  res : Except Err Bytes

/-- `readHandshakeMessage` (handshake.go:142-155): insecure transport read,
then engine `ReadMessage`, then — only if the engine returned both cipher
states — `setCipherStates`.  A `.recv` event is emitted once a frame has
been received. -/
def readHandshakeMessage (env : Env) (s : secureSession) (h : HandshakeState)
    (tr : TR) : ReadResult :=
  match env.readMsgInsecure tr with
  | .error e => ⟨[], s, h, tr, .error e⟩
  | .ok (tr2, raw) =>
      match engineReadMessage env h raw with
      | .error e => ⟨[Event.recv], s, h, tr2, .error e⟩
      | .ok (h2, msg, cs1, cs2) =>
          match cs1, cs2 with
          | some c1, some c2 => ⟨[Event.recv], setCipherStates s c1 c2, h2, tr2, .ok msg⟩
          | _, _ => ⟨[Event.recv], s, h2, tr2, .ok msg⟩

/-- Result of `generateHandshakePayload`: emitted trace events and either
the serialized payload bytes or the Go error. -/
structure GenResult where
  evs : List Event
  res : Except Err Bytes

/-- `generateHandshakePayload` (handshake.go:159-183): serialize the local
identity public key, sign `payloadSigPrefix ‖ localStatic.Public` with the
identity private key, and marshal the `{identityKey, identitySig}` record.
The two fallible steps wrap their cause exactly as the Go code does. -/
def generateHandshakePayload (env : Env) (s : secureSession) (localStatic : DHKey) :
    GenResult :=
  match env.pubKeyBytes s.localPub with
  | .error e => ⟨[], .error (.wrap "error serializing libp2p identity key" e)⟩
  | .ok localKeyRaw =>
      let toSign := payloadSigPrefixBytes ++ localStatic.Public
      match env.sign s.localKey toSign with
      | .error e => ⟨[Event.sign toSign], .error (.wrap "error sigining handshake payload" e)⟩
      | .ok signedPayload =>
          ⟨[Event.sign toSign], .ok (env.protoMarshal ⟨localKeyRaw, signedPayload⟩)⟩

/-- Result of `handleRemoteHandshakePayload`: emitted trace events, the
session after the call, and the Go error. -/
structure HandleResult where
  evs : List Event
  sess : secureSession
  err : Option Err
deriving DecidableEq

/-- `handleRemoteHandshakePayload` (handshake.go:187-225): unmarshal the
payload, unmarshal the embedded identity public key, derive the peer id,
check it against `s.remoteID` when the session is an initiator, verify the
signature over `payloadSigPrefix ‖ remoteStatic`, and only then record the
remote id and key on the session. -/
def handleRemoteHandshakePayload (env : Env) (s : secureSession)
    (payload : Bytes) (remoteStatic : Bytes) : HandleResult :=
  match env.protoUnmarshal payload with
  | .error e =>
      ⟨[Event.handleRemote remoteStatic], s, some (.wrap "error unmarshaling remote handshake payload" e)⟩
  | .ok nhp =>
      match env.unmarshalPublicKey nhp.identityKey with
      | .error e => ⟨[Event.handleRemote remoteStatic], s, some e⟩
      | .ok remotePubKey =>
          match env.idFromPublicKey remotePubKey with
          | .error e => ⟨[Event.handleRemote remoteStatic], s, some e⟩
          | .ok idv =>
              if s.initiator ∧ s.remoteID ≠ idv then
                ⟨[Event.handleRemote remoteStatic], s, some (.peerIDMismatch s.remoteID idv)⟩
              else
                let sig := nhp.identitySig
                let msg := payloadSigPrefixBytes ++ remoteStatic
                match env.verify remotePubKey msg sig with
                | .error e =>
                    ⟨[Event.handleRemote remoteStatic, Event.verifySig msg], s,
                     some (.wrap "error verifying signature" e)⟩
                | .ok false =>
                    ⟨[Event.handleRemote remoteStatic, Event.verifySig msg], s, some .sigInvalid⟩
                | .ok true =>
                    ⟨[Event.handleRemote remoteStatic, Event.verifySig msg],
                     { s with remoteID := idv, remoteKey := some remotePubKey }, none⟩

/-- Result of `runHandshake`: full ghost trace, final session, transport
state, and the Go error (`none` = handshake secured). -/
structure RunResult where
  evs : List Event
  sess : secureSession
  tr : TR
  err : Option Err
deriving DecidableEq

/-- `runHandshake` (handshake.go:26-97): generate the ephemeral keypair,
initialize the engine, build the local payload, then drive the fixed
role-specific 3-message sequence; handshake-message errors are wrapped
exactly as the Go code wraps them, payload errors are returned unchanged. -/
def runHandshake (env : Env) (s : secureSession) (tr : TR) : RunResult :=
  match env.generateKeypair with
  | .error e => ⟨[Event.genKeypair], s, tr, some (.wrap "error generating static keypair" e)⟩
  | .ok kp =>
      match newHandshakeState env ⟨cipherSuite, handshakeXX, s.initiator, kp⟩ with
      | .error e => ⟨[Event.genKeypair], s, tr, some (.wrap "error initializing handshake state" e)⟩
      | .ok hs0 =>
          match generateHandshakePayload env s kp with
          | ⟨gevs, .error e⟩ => ⟨Event.genKeypair :: gevs, s, tr, some e⟩
          | ⟨gevs, .ok payload⟩ =>
              if s.initiator then
                match sendHandshakeMessage env s hs0 tr [] with
                | ⟨evs0, s0, _, tr1, some e⟩ =>
                    ⟨Event.genKeypair :: (gevs ++ evs0), s0, tr1,
                     some (.wrap "error sending handshake message" e)⟩
                | ⟨evs0, s0, hs1, tr1, none⟩ =>
                    match readHandshakeMessage env s0 hs1 tr1 with
                    | ⟨evs1, s1, _, tr2, .error e⟩ =>
                        ⟨Event.genKeypair :: (gevs ++ evs0 ++ evs1), s1, tr2,
                         some (.wrap "error reading handshake message" e)⟩
                    | ⟨evs1, s1, hs2, tr2, .ok plaintext⟩ =>
                        match handleRemoteHandshakePayload env s1 plaintext (peerStatic env hs2) with
                        | ⟨evs2, s2, some e⟩ =>
                            ⟨Event.genKeypair :: (gevs ++ evs0 ++ evs1 ++ evs2), s2, tr2, some e⟩
                        | ⟨evs2, s2, none⟩ =>
                            match sendHandshakeMessage env s2 hs2 tr2 payload with
                            | ⟨evs3, s3, _, tr3, some e⟩ =>
                                ⟨Event.genKeypair :: (gevs ++ evs0 ++ evs1 ++ evs2 ++ evs3), s3, tr3,
                                 some (.wrap "error sending handshake message" e)⟩
                            | ⟨evs3, s3, _, tr3, none⟩ =>
                                ⟨Event.genKeypair :: (gevs ++ evs0 ++ evs1 ++ evs2 ++ evs3), s3, tr3, none⟩
              else
                match readHandshakeMessage env s hs0 tr with
                | ⟨evs0, s0, _, tr1, .error e⟩ =>
                    ⟨Event.genKeypair :: (gevs ++ evs0), s0, tr1,
                     some (.wrap "error reading handshake message" e)⟩
                | ⟨evs0, s0, hs1, tr1, .ok _plaintext⟩ =>
                    match sendHandshakeMessage env s0 hs1 tr1 payload with
                    | ⟨evs1, s1, _, tr2, some e⟩ =>
                        ⟨Event.genKeypair :: (gevs ++ evs0 ++ evs1), s1, tr2,
                         some (.wrap "error sending handshake message" e)⟩
                    | ⟨evs1, s1, hs2, tr2, none⟩ =>
                        match readHandshakeMessage env s1 hs2 tr2 with
                        | ⟨evs2, s2, _, tr3, .error e⟩ =>
                            ⟨Event.genKeypair :: (gevs ++ evs0 ++ evs1 ++ evs2), s2, tr3,
                             some (.wrap "error reading handshake message" e)⟩
                        | ⟨evs2, s2, hs3, tr3, .ok plaintext⟩ =>
                            match handleRemoteHandshakePayload env s2 plaintext (peerStatic env hs3) with
                            | ⟨evs3, s3, some e⟩ =>
                                ⟨Event.genKeypair :: (gevs ++ evs0 ++ evs1 ++ evs2 ++ evs3), s3, tr3, some e⟩
                            | ⟨evs3, s3, none⟩ =>
                                ⟨Event.genKeypair :: (gevs ++ evs0 ++ evs1 ++ evs2 ++ evs3), s3, tr3, none⟩

/-- Whether a trace event is a message-level event (send, receive, or
remote-payload handling), as opposed to a ghost crypto event. -/
def isIOEvent : Event → Bool
  | .send _ => true
  | .recv => true
  | .handleRemote _ => true
  | _ => false

/-- The message-level subsequence of a trace. -/
def ioEvents (evs : List Event) : List Event := evs.filter isIOEvent

end Noise
namespace Noise

theorem send_cases (env : Env) (s : secureSession) (h : HandshakeState) (tr : TR) (p : Bytes) :
    (∃ e, sendHandshakeMessage env s h tr p = ⟨[], s, h, tr, some e⟩) ∨
    (∃ e h2, sendHandshakeMessage env s h tr p = ⟨[], s, h2, tr, some e⟩) ∨
    (∃ h2 tr2 c1 c2, h.idx + 1 = 3 ∧ h2.idx = h.idx + 1 ∧
      sendHandshakeMessage env s h tr p = ⟨[Event.send p], setCipherStates s c1 c2, h2, tr2, none⟩) ∨
    (∃ h2 tr2, h.idx + 1 ≠ 3 ∧ h2.idx = h.idx + 1 ∧
      sendHandshakeMessage env s h tr p = ⟨[Event.send p], s, h2, tr2, none⟩) := by
  unfold sendHandshakeMessage engineWriteMessage
  cases hw : env.writeF h.idx p with
  | error e => exact .inl ⟨e, rfl⟩
  | ok buf =>
    dsimp only
    by_cases hidx : h.idx + 1 = 3
    · rw [if_pos hidx]
      dsimp only
      cases hwi : env.writeMsgInsecure tr buf with
      | error e => exact .inr (.inl ⟨e, _, rfl⟩)
      | ok tr2 =>
        exact .inr (.inr (.inl ⟨_, tr2, env.csPair.1, env.csPair.2, hidx, rfl, rfl⟩))
    · rw [if_neg hidx]
      dsimp only
      cases hwi : env.writeMsgInsecure tr buf with
      | error e => exact .inr (.inl ⟨e, _, rfl⟩)
      | ok tr2 =>
        exact .inr (.inr (.inr ⟨_, tr2, hidx, rfl, rfl⟩))

theorem read_cases (env : Env) (s : secureSession) (h : HandshakeState) (tr : TR) :
    (∃ e, readHandshakeMessage env s h tr = ⟨[], s, h, tr, .error e⟩) ∨
    (∃ e tr2, readHandshakeMessage env s h tr = ⟨[Event.recv], s, h, tr2, .error e⟩) ∨
    (∃ h2 tr2 c1 c2 m, h.idx + 1 = 3 ∧ h2.idx = h.idx + 1 ∧
      readHandshakeMessage env s h tr = ⟨[Event.recv], setCipherStates s c1 c2, h2, tr2, .ok m⟩) ∨
    (∃ h2 tr2 m, h.idx + 1 ≠ 3 ∧ h2.idx = h.idx + 1 ∧
      readHandshakeMessage env s h tr = ⟨[Event.recv], s, h2, tr2, .ok m⟩) := by
  unfold readHandshakeMessage engineReadMessage
  cases hr : env.readMsgInsecure tr with
  | error e => exact .inl ⟨e, rfl⟩
  | ok pair =>
    rcases pair with ⟨tr2, raw⟩
    dsimp only
    cases hrm : env.readF h.idx raw with
    | error e => exact .inr (.inl ⟨e, tr2, rfl⟩)
    | ok msg =>
      dsimp only
      by_cases hidx : h.idx + 1 = 3
      · rw [if_pos hidx]
        dsimp only
        exact .inr (.inr (.inl ⟨_, tr2, env.csPair.1, env.csPair.2, msg, hidx, rfl, rfl⟩))
      · rw [if_neg hidx]
        dsimp only
        exact .inr (.inr (.inr ⟨_, tr2, msg, hidx, rfl, rfl⟩))

theorem handle_cases (env : Env) (s : secureSession) (payload rs : Bytes) :
    (∃ e, handleRemoteHandshakePayload env s payload rs = ⟨[Event.handleRemote rs], s, some e⟩) ∨
    (∃ e, handleRemoteHandshakePayload env s payload rs =
      ⟨[Event.handleRemote rs, Event.verifySig (payloadSigPrefixBytes ++ rs)], s, some e⟩) ∨
    (∃ nhp pk idv, env.protoUnmarshal payload = .ok nhp ∧
      env.unmarshalPublicKey nhp.identityKey = .ok pk ∧
      env.idFromPublicKey pk = .ok idv ∧
      ¬(s.initiator ∧ s.remoteID ≠ idv) ∧
      env.verify pk (payloadSigPrefixBytes ++ rs) nhp.identitySig = .ok true ∧
      handleRemoteHandshakePayload env s payload rs =
        ⟨[Event.handleRemote rs, Event.verifySig (payloadSigPrefixBytes ++ rs)],
         { s with remoteID := idv, remoteKey := some pk }, none⟩) := by
  unfold handleRemoteHandshakePayload
  cases hu : env.protoUnmarshal payload with
  | error e => exact .inl ⟨_, rfl⟩
  | ok nhp =>
    dsimp only
    cases hk : env.unmarshalPublicKey nhp.identityKey with
    | error e => exact .inl ⟨_, rfl⟩
    | ok pk =>
      dsimp only
      cases hid : env.idFromPublicKey pk with
      | error e => exact .inl ⟨_, rfl⟩
      | ok idv =>
        dsimp only
        by_cases hmis : s.initiator ∧ s.remoteID ≠ idv
        · rw [if_pos hmis]
          exact .inl ⟨_, rfl⟩
        · rw [if_neg hmis]
          cases hv : env.verify pk (payloadSigPrefixBytes ++ rs) nhp.identitySig with
          | error e => exact .inr (.inl ⟨_, rfl⟩)
          | ok b =>
            cases b with
            | false => exact .inr (.inl ⟨_, rfl⟩)
            | true => exact .inr (.inr ⟨nhp, pk, idv, rfl, hk, hid, hmis, hv, rfl⟩)

theorem gen_cases (env : Env) (s : secureSession) (kp : DHKey) :
    (∃ e, env.pubKeyBytes s.localPub = .error e ∧ generateHandshakePayload env s kp =
      ⟨[], .error (.wrap "error serializing libp2p identity key" e)⟩) ∨
    (∃ e, env.sign s.localKey (payloadSigPrefixBytes ++ kp.Public) = .error e ∧
      generateHandshakePayload env s kp =
        ⟨[Event.sign (payloadSigPrefixBytes ++ kp.Public)],
         .error (.wrap "error sigining handshake payload" e)⟩) ∨
    (∃ raw sg, env.pubKeyBytes s.localPub = .ok raw ∧
      env.sign s.localKey (payloadSigPrefixBytes ++ kp.Public) = .ok sg ∧
      generateHandshakePayload env s kp =
        ⟨[Event.sign (payloadSigPrefixBytes ++ kp.Public)], .ok (env.protoMarshal ⟨raw, sg⟩)⟩) := by
  unfold generateHandshakePayload
  cases hb : env.pubKeyBytes s.localPub with
  | error e => exact .inl ⟨e, rfl, rfl⟩
  | ok raw =>
    dsimp only
    cases hs : env.sign s.localKey (payloadSigPrefixBytes ++ kp.Public) with
    | error e => exact .inr (.inl ⟨e, rfl, rfl⟩)
    | ok sg => exact .inr (.inr ⟨raw, sg, rfl, rfl, rfl⟩)

theorem newHandshakeState_idx (env : Env) (cfg : Config) (h : HandshakeState)
    (heq : newHandshakeState env cfg = .ok h) : h.idx = 0 ∧ h.initiator = cfg.Initiator := by
  unfold newHandshakeState at heq
  cases hi : env.hsInitErr cfg with
  | some e => rw [hi] at heq; exact absurd heq (by simp)
  | none => rw [hi] at heq; cases heq; exact ⟨rfl, rfl⟩

end Noise

namespace Noise

/-- The initiator's full message-level sequence. -/
def initSeq (pl rs : Bytes) : List Event :=
  [Event.send [], Event.recv, Event.handleRemote rs, Event.send pl]

/-- The responder's full message-level sequence. -/
def respSeq (pl rs : Bytes) : List Event :=
  [Event.recv, Event.send pl, Event.recv, Event.handleRemote rs]

/-- A branch made vacuous by a Boolean role hypothesis. -/
theorem ftElim {C : Prop} (h : false = true) : C := nomatch h

/-- A branch made vacuous by a Boolean role hypothesis. -/
theorem tfElim {C : Prop} (h : true = false) : C := nomatch h

/-- A branch made vacuous by an error result. -/
theorem someNeNone {A : Type} {a : A} {C : Prop} (h : some a = none) : C := nomatch h

theorem runHandshake_trace (env : Env) (s : secureSession) (tr : TR) :
    (∃ rest, (runHandshake env s tr).evs = Event.genKeypair :: rest ∧ Event.genKeypair ∉ rest)
    ∧ (s.initiator = true →
        ∃ pl rs k, ioEvents (runHandshake env s tr).evs ++ k = initSeq pl rs ∧
          ((runHandshake env s tr).err = none →
            k = [] ∧ rs = env.peerStaticOf 2 ∧
            ∃ kp, env.generateKeypair = .ok kp ∧ (generateHandshakePayload env s kp).res = .ok pl))
    ∧ (s.initiator = false →
        ∃ pl rs k, ioEvents (runHandshake env s tr).evs ++ k = respSeq pl rs ∧
          ((runHandshake env s tr).err = none →
            k = [] ∧ rs = env.peerStaticOf 3 ∧
            ∃ kp, env.generateKeypair = .ok kp ∧ (generateHandshakePayload env s kp).res = .ok pl)) := by
  unfold runHandshake
  cases hg : env.generateKeypair with
  | error e =>
    dsimp only
    refine ⟨⟨[], rfl, by simp⟩,
      fun _ => ⟨[], [], initSeq [] [], rfl, someNeNone⟩,
      fun _ => ⟨[], [], respSeq [] [], rfl, someNeNone⟩⟩
  | ok kp =>
    dsimp only
    cases hn : newHandshakeState env ⟨cipherSuite, handshakeXX, s.initiator, kp⟩ with
    | error e =>
      dsimp only
      refine ⟨⟨[], rfl, by simp⟩,
        fun _ => ⟨[], [], initSeq [] [], rfl, someNeNone⟩,
        fun _ => ⟨[], [], respSeq [] [], rfl, someNeNone⟩⟩
    | ok hs0 =>
      dsimp only
      obtain ⟨hids0, -⟩ := newHandshakeState_idx env _ hs0 hn
      rcases gen_cases env s kp with ⟨e, hb, hgen⟩ | ⟨e, hsg, hgen⟩ | ⟨raw, sg, hb, hsg, hgen⟩
      · rw [hgen]
        dsimp only
        refine ⟨⟨[], rfl, by simp⟩,
          fun _ => ⟨[], [], initSeq [] [], rfl, someNeNone⟩,
          fun _ => ⟨[], [], respSeq [] [], rfl, someNeNone⟩⟩
      · rw [hgen]
        dsimp only
        refine ⟨⟨_, rfl, by simp⟩,
          fun _ => ⟨[], [], initSeq [] [], rfl, someNeNone⟩,
          fun _ => ⟨[], [], respSeq [] [], rfl, someNeNone⟩⟩
      · rw [hgen]
        dsimp only
        cases hini : s.initiator with
        | true =>
          rw [if_pos rfl]
          rcases send_cases env s hs0 tr [] with ⟨e, hS⟩ | ⟨e, h2, hS⟩ |
            ⟨h2, tr2, c1, c2, hidx, hidx2, hS⟩ | ⟨h2, tr2, hidx, hidx2, hS⟩
          · rw [hS]
            dsimp only
            refine ⟨⟨_, rfl, by simp⟩,
              fun _ => ⟨[], [], initSeq [] [], rfl, someNeNone⟩,
              tfElim⟩
          · rw [hS]
            dsimp only
            refine ⟨⟨_, rfl, by simp⟩,
              fun _ => ⟨[], [], initSeq [] [], rfl, someNeNone⟩,
              tfElim⟩
          · omega
          · rw [hS]
            dsimp only
            rcases read_cases env s h2 tr2 with ⟨e, hR⟩ | ⟨e, tr3, hR⟩ |
              ⟨h3, tr3, c1, c2, m, hidx', hidx2', hR⟩ | ⟨h3, tr3, m, hidx', hidx2', hR⟩
            · rw [hR]
              dsimp only
              refine ⟨⟨_, rfl, by simp⟩,
                fun _ => ⟨[], [], [Event.recv, Event.handleRemote [], Event.send []], rfl,
                  someNeNone⟩,
                tfElim⟩
            · rw [hR]
              dsimp only
              refine ⟨⟨_, rfl, by simp⟩,
                fun _ => ⟨[], [], [Event.handleRemote [], Event.send []], rfl,
                  someNeNone⟩,
                tfElim⟩
            · omega
            · rw [hR]
              dsimp only
              rcases handle_cases env s m (peerStatic env h3) with ⟨e, hH⟩ | ⟨e, hH⟩ |
                ⟨nhp, pk, idv, hu, hk, hid, hmis, hv, hH⟩
              · rw [hH]
                dsimp only
                refine ⟨⟨_, rfl, by simp⟩,
                  fun _ => ⟨[], peerStatic env h3, [Event.send []], rfl, someNeNone⟩,
                  tfElim⟩
              · rw [hH]
                dsimp only
                refine ⟨⟨_, rfl, by simp⟩,
                  fun _ => ⟨[], peerStatic env h3, [Event.send []], rfl, someNeNone⟩,
                  tfElim⟩
              · rw [hH]
                dsimp only
                rcases send_cases env { s with remoteID := idv, remoteKey := some pk } h3 tr3
                    (env.protoMarshal ⟨raw, sg⟩) with ⟨e, hS2⟩ | ⟨e, h4, hS2⟩ |
                  ⟨h4, tr4, c1, c2, hidx2x, hidx2y, hS2⟩ | ⟨h4, tr4, hidx2x, hidx2y, hS2⟩
                · rw [hS2]
                  dsimp only
                  refine ⟨⟨_, rfl, by simp⟩,
                    fun _ => ⟨[], peerStatic env h3, [Event.send []], rfl,
                      someNeNone⟩,
                    tfElim⟩
                · rw [hS2]
                  dsimp only
                  refine ⟨⟨_, rfl, by simp⟩,
                    fun _ => ⟨[], peerStatic env h3, [Event.send []], rfl,
                      someNeNone⟩,
                    tfElim⟩
                · rw [hS2]
                  dsimp only
                  refine ⟨⟨_, rfl, by simp⟩,
                    fun _ => ⟨env.protoMarshal ⟨raw, sg⟩, peerStatic env h3, [], rfl,
                      fun _ => ⟨rfl, ?_, kp, rfl, by rw [hgen]⟩⟩,
                    tfElim⟩
                  show env.peerStaticOf h3.idx = env.peerStaticOf 2
                  rw [hidx2', hidx2, hids0]
                · omega
        | false =>
          rw [if_neg (by simp)]
          rcases read_cases env s hs0 tr with ⟨e, hR⟩ | ⟨e, tr2, hR⟩ |
            ⟨h2, tr2, c1, c2, m, hidx, hidx2, hR⟩ | ⟨h2, tr2, m, hidx, hidx2, hR⟩
          · rw [hR]
            dsimp only
            refine ⟨⟨_, rfl, by simp⟩,
              ftElim,
              fun _ => ⟨[], [], respSeq [] [], rfl, someNeNone⟩⟩
          · rw [hR]
            dsimp only
            refine ⟨⟨_, rfl, by simp⟩,
              ftElim,
              fun _ => ⟨[], [], [Event.send [], Event.recv, Event.handleRemote []], rfl,
                someNeNone⟩⟩
          · omega
          · rw [hR]
            dsimp only
            rcases send_cases env s h2 tr2 (env.protoMarshal ⟨raw, sg⟩) with ⟨e, hS⟩ |
              ⟨e, h3, hS⟩ | ⟨h3, tr3, c1, c2, hidx', hidx2', hS⟩ | ⟨h3, tr3, hidx', hidx2', hS⟩
            · rw [hS]
              dsimp only
              refine ⟨⟨_, rfl, by simp⟩,
                ftElim,
                fun _ => ⟨[], [], [Event.send [], Event.recv, Event.handleRemote []], rfl,
                  someNeNone⟩⟩
            · rw [hS]
              dsimp only
              refine ⟨⟨_, rfl, by simp⟩,
                ftElim,
                fun _ => ⟨[], [], [Event.send [], Event.recv, Event.handleRemote []], rfl,
                  someNeNone⟩⟩
            · omega
            · rw [hS]
              dsimp only
              rcases read_cases env s h3 tr3 with ⟨e, hR2⟩ | ⟨e, tr4, hR2⟩ |
                ⟨h4, tr4, c1, c2, m2, hidx2x, hidx2y, hR2⟩ | ⟨h4, tr4, m2, hidx2x, hidx2y, hR2⟩
              · rw [hR2]
                dsimp only
                refine ⟨⟨_, rfl, by simp⟩,
                  ftElim,
                  fun _ => ⟨env.protoMarshal ⟨raw, sg⟩, [],
                    [Event.recv, Event.handleRemote []], rfl, someNeNone⟩⟩
              · rw [hR2]
                dsimp only
                refine ⟨⟨_, rfl, by simp⟩,
                  ftElim,
                  fun _ => ⟨env.protoMarshal ⟨raw, sg⟩, [],
                    [Event.handleRemote []], rfl, someNeNone⟩⟩
              · rw [hR2]
                dsimp only
                rcases handle_cases env (setCipherStates s c1 c2) m2 (peerStatic env h4) with
                  ⟨e, hH⟩ | ⟨e, hH⟩ | ⟨nhp, pk, idv, hu, hk, hid, hmis, hv, hH⟩
                · rw [hH]
                  dsimp only
                  refine ⟨⟨_, rfl, by simp⟩,
                    ftElim,
                    fun _ => ⟨env.protoMarshal ⟨raw, sg⟩, peerStatic env h4, [], rfl,
                      someNeNone⟩⟩
                · rw [hH]
                  dsimp only
                  refine ⟨⟨_, rfl, by simp⟩,
                    ftElim,
                    fun _ => ⟨env.protoMarshal ⟨raw, sg⟩, peerStatic env h4, [], rfl,
                      someNeNone⟩⟩
                · rw [hH]
                  dsimp only
                  refine ⟨⟨_, rfl, by simp⟩,
                    ftElim,
                    fun _ => ⟨env.protoMarshal ⟨raw, sg⟩, peerStatic env h4, [], rfl,
                      fun _ => ⟨rfl, ?_, kp, rfl, by rw [hgen]⟩⟩⟩
                  show env.peerStaticOf h4.idx = env.peerStaticOf 3
                  rw [hidx2y, hidx2', hidx2, hids0]
              · omega

end Noise

namespace Noise

theorem runHandshake_abort (env : Env) (s : secureSession) (tr : TR) :
    (runHandshake env s tr).err ≠ none →
    ((s.initiator = true →
        (runHandshake env s tr).sess.enc = s.enc ∧ (runHandshake env s tr).sess.dec = s.dec) ∧
     (s.initiator = false →
        (runHandshake env s tr).sess.remoteKey = s.remoteKey ∧
        (runHandshake env s tr).sess.remoteID = s.remoteID)) := by
  unfold runHandshake
  cases hg : env.generateKeypair with
  | error e =>
    dsimp only
    exact fun _ => ⟨fun _ => ⟨rfl, rfl⟩, fun _ => ⟨rfl, rfl⟩⟩
  | ok kp =>
    dsimp only
    cases hn : newHandshakeState env ⟨cipherSuite, handshakeXX, s.initiator, kp⟩ with
    | error e =>
      dsimp only
      exact fun _ => ⟨fun _ => ⟨rfl, rfl⟩, fun _ => ⟨rfl, rfl⟩⟩
    | ok hs0 =>
      dsimp only
      obtain ⟨hids0, -⟩ := newHandshakeState_idx env _ hs0 hn
      rcases gen_cases env s kp with ⟨e, hb, hgen⟩ | ⟨e, hsg, hgen⟩ | ⟨raw, sg, hb, hsg, hgen⟩
      · rw [hgen]
        dsimp only
        exact fun _ => ⟨fun _ => ⟨rfl, rfl⟩, fun _ => ⟨rfl, rfl⟩⟩
      · rw [hgen]
        dsimp only
        exact fun _ => ⟨fun _ => ⟨rfl, rfl⟩, fun _ => ⟨rfl, rfl⟩⟩
      · rw [hgen]
        dsimp only
        cases hini : s.initiator with
        | true =>
          rw [if_pos rfl]
          rcases send_cases env s hs0 tr [] with ⟨e, hS⟩ | ⟨e, h2, hS⟩ |
            ⟨h2, tr2, c1, c2, hidx, hidx2, hS⟩ | ⟨h2, tr2, hidx, hidx2, hS⟩
          · rw [hS]
            dsimp only
            exact fun _ => ⟨fun _ => ⟨rfl, rfl⟩, tfElim⟩
          · rw [hS]
            dsimp only
            exact fun _ => ⟨fun _ => ⟨rfl, rfl⟩, tfElim⟩
          · omega
          · rw [hS]
            dsimp only
            rcases read_cases env s h2 tr2 with ⟨e, hR⟩ | ⟨e, tr3, hR⟩ |
              ⟨h3, tr3, c1, c2, m, hidx', hidx2', hR⟩ | ⟨h3, tr3, m, hidx', hidx2', hR⟩
            · rw [hR]
              dsimp only
              exact fun _ => ⟨fun _ => ⟨rfl, rfl⟩, tfElim⟩
            · rw [hR]
              dsimp only
              exact fun _ => ⟨fun _ => ⟨rfl, rfl⟩, tfElim⟩
            · omega
            · rw [hR]
              dsimp only
              rcases handle_cases env s m (peerStatic env h3) with ⟨e, hH⟩ | ⟨e, hH⟩ |
                ⟨nhp, pk, idv, hu, hk, hid, hmis, hv, hH⟩
              · rw [hH]
                dsimp only
                exact fun _ => ⟨fun _ => ⟨rfl, rfl⟩, tfElim⟩
              · rw [hH]
                dsimp only
                exact fun _ => ⟨fun _ => ⟨rfl, rfl⟩, tfElim⟩
              · rw [hH]
                dsimp only
                rcases send_cases env { s with remoteID := idv, remoteKey := some pk } h3 tr3
                    (env.protoMarshal ⟨raw, sg⟩) with ⟨e, hS2⟩ | ⟨e, h4, hS2⟩ |
                  ⟨h4, tr4, c1, c2, hidx2x, hidx2y, hS2⟩ | ⟨h4, tr4, hidx2x, hidx2y, hS2⟩
                · rw [hS2]
                  dsimp only
                  exact fun _ => ⟨fun _ => ⟨rfl, rfl⟩, tfElim⟩
                · rw [hS2]
                  dsimp only
                  exact fun _ => ⟨fun _ => ⟨rfl, rfl⟩, tfElim⟩
                · rw [hS2]
                  dsimp only
                  exact fun herr => absurd rfl herr
                · omega
        | false =>
          rw [if_neg (by simp)]
          rcases read_cases env s hs0 tr with ⟨e, hR⟩ | ⟨e, tr2, hR⟩ |
            ⟨h2, tr2, c1, c2, m, hidx, hidx2, hR⟩ | ⟨h2, tr2, m, hidx, hidx2, hR⟩
          · rw [hR]
            dsimp only
            exact fun _ => ⟨ftElim, fun _ => ⟨rfl, rfl⟩⟩
          · rw [hR]
            dsimp only
            exact fun _ => ⟨ftElim, fun _ => ⟨rfl, rfl⟩⟩
          · omega
          · rw [hR]
            dsimp only
            rcases send_cases env s h2 tr2 (env.protoMarshal ⟨raw, sg⟩) with ⟨e, hS⟩ |
              ⟨e, h3, hS⟩ | ⟨h3, tr3, c1, c2, hidx', hidx2', hS⟩ | ⟨h3, tr3, hidx', hidx2', hS⟩
            · rw [hS]
              dsimp only
              exact fun _ => ⟨ftElim, fun _ => ⟨rfl, rfl⟩⟩
            · rw [hS]
              dsimp only
              exact fun _ => ⟨ftElim, fun _ => ⟨rfl, rfl⟩⟩
            · omega
            · rw [hS]
              dsimp only
              rcases read_cases env s h3 tr3 with ⟨e, hR2⟩ | ⟨e, tr4, hR2⟩ |
                ⟨h4, tr4, c1, c2, m2, hidx2x, hidx2y, hR2⟩ | ⟨h4, tr4, m2, hidx2x, hidx2y, hR2⟩
              · rw [hR2]
                dsimp only
                exact fun _ => ⟨ftElim, fun _ => ⟨rfl, rfl⟩⟩
              · rw [hR2]
                dsimp only
                exact fun _ => ⟨ftElim, fun _ => ⟨rfl, rfl⟩⟩
              · rw [hR2]
                dsimp only
                rcases handle_cases env (setCipherStates s c1 c2) m2 (peerStatic env h4) with
                  ⟨e, hH⟩ | ⟨e, hH⟩ | ⟨nhp, pk, idv, hu, hk, hid, hmis, hv, hH⟩
                · rw [hH]
                  dsimp only
                  exact fun _ => ⟨ftElim,
                    fun _ => ⟨by simp [setCipherStates, hini], by simp [setCipherStates, hini]⟩⟩
                · rw [hH]
                  dsimp only
                  exact fun _ => ⟨ftElim,
                    fun _ => ⟨by simp [setCipherStates, hini], by simp [setCipherStates, hini]⟩⟩
                · rw [hH]
                  dsimp only
                  exact fun herr => absurd rfl herr
              · omega

end Noise

namespace Noise

/-- A concrete environment in which every collaborator succeeds: signatures
verify, the remote identity key unmarshals to key `5` whose derived peer id
is `[3]`, and the engine's completion cipher-state pair is `(10, 20)`. -/
def okEnv : Env where
  generateKeypair := .ok ⟨[1], [2]⟩
  hsInitErr := fun _ => none
  writeF := fun _ p => .ok p
  readF := fun _ raw => .ok raw
  csPair := (⟨10⟩, ⟨20⟩)
  peerStaticOf := fun i => [100 + i]
  writeMsgInsecure := fun tr _ => .ok tr
  readMsgInsecure := fun tr => .ok (tr, [0])
  pubKeyBytes := fun k => .ok [k]
  sign := fun _ _ => .ok [7]
  verify := fun _ _ _ => .ok true
  unmarshalPublicKey := fun _ => .ok 5
  idFromPublicKey := fun _ => .ok [3]
  protoMarshal := fun p => p.identityKey ++ p.identitySig
  protoUnmarshal := fun _ => .ok ⟨[4], [6]⟩

/-- `okEnv` except that every signature verification reports `false`. -/
def envBadVerify : Env := { okEnv with verify := fun _ _ _ => .ok false }

/-- `okEnv` except that signing fails with external error `9`. -/
def envBadSign : Env := { okEnv with sign := fun _ _ => .error (.ext 9) }

/-- `okEnv` except that the derived remote peer id is `[9]`. -/
def envMismatch : Env := { okEnv with idFromPublicKey := fun _ => .ok [9] }

/-- A fresh responder session. -/
def respSession : secureSession := ⟨false, 1, 2, [], none, none, none⟩

/-- A fresh initiator session expecting remote peer id `[3]`. -/
def initSessionKnown : secureSession := ⟨true, 1, 2, [3], none, none, none⟩

/-- A fresh initiator session with no expected remote peer id supplied
(the Go zero value `""`). -/
def initSessionNoExp : secureSession := ⟨true, 1, 2, [], none, none, none⟩

/-- A responder session that already completed a handshake successfully:
cipher states, remote key and remote id are all populated. -/
def completedResp : secureSession := ⟨false, 1, 2, [3], some 5, some ⟨10⟩, some ⟨20⟩⟩

/-- C1: the orchestrator drives the fixed role-specific 3-message sequence.
For every environment (hence every collaborator behaviour), the
message-level trace of a run is a prefix of the role's fixed sequence —
initiator: send message 1 with empty payload, receive message 2, handle its
payload against the engine-reported remote static key, send message 3 with
the generated payload; responder: receive, send payload, receive, handle —
and equals the full sequence exactly on success, with the remote static key
being the engine-reported one after the preceding messages. -/
theorem C1_run_message_order (env : Env) (s : secureSession) (tr : TR) :
    (s.initiator = true → ∃ pl rs k,
      ioEvents (runHandshake env s tr).evs ++ k = initSeq pl rs ∧
      ((runHandshake env s tr).err = none →
        k = [] ∧ rs = env.peerStaticOf 2 ∧
        ∃ kp, env.generateKeypair = .ok kp ∧
          (generateHandshakePayload env s kp).res = .ok pl)) ∧
    (s.initiator = false → ∃ pl rs k,
      ioEvents (runHandshake env s tr).evs ++ k = respSeq pl rs ∧
      ((runHandshake env s tr).err = none →
        k = [] ∧ rs = env.peerStaticOf 3 ∧
        ∃ kp, env.generateKeypair = .ok kp ∧
          (generateHandshakePayload env s kp).res = .ok pl)) :=
  ⟨(runHandshake_trace env s tr).2.1, (runHandshake_trace env s tr).2.2⟩

/-- Witness for C1: a successful initiator run in the concrete environment
produces exactly the initiator sequence. -/
theorem C1_run_message_order_witness :
    ioEvents (runHandshake okEnv initSessionKnown 0).evs = initSeq [2, 7] [102] := by
  obtain ⟨pl, rs, k, hpre, hok⟩ := (C1_run_message_order okEnv initSessionKnown 0).1 rfl
  obtain ⟨hk0, hrs, kp, hkp, hpl⟩ := hok rfl
  exact rfl

/-- C2: cipher-state finalization maps the engine's ordered pair by role —
initiator encrypt = first, decrypt = second; responder encrypt = second,
decrypt = first — and `sendHandshakeMessage`/`readHandshakeMessage` perform
this assignment exactly when the engine step returns both states. -/
theorem C2_cipher_state_assignment (env : Env) :
    (∀ s c1 c2,
      (setCipherStates s c1 c2).enc = some (if s.initiator then c1 else c2) ∧
      (setCipherStates s c1 c2).dec = some (if s.initiator then c2 else c1)) ∧
    (∀ s h tr p h2 buf c1 c2 tr2,
      engineWriteMessage env h p = .ok (h2, buf, some c1, some c2) →
      env.writeMsgInsecure tr buf = .ok tr2 →
      sendHandshakeMessage env s h tr p =
        ⟨[Event.send p], setCipherStates s c1 c2, h2, tr2, none⟩) ∧
    (∀ s h tr p h2 buf tr2,
      engineWriteMessage env h p = .ok (h2, buf, none, none) →
      env.writeMsgInsecure tr buf = .ok tr2 →
      sendHandshakeMessage env s h tr p = ⟨[Event.send p], s, h2, tr2, none⟩) ∧
    (∀ s h tr p e, engineWriteMessage env h p = .error e →
      (sendHandshakeMessage env s h tr p).sess = s) ∧
    (∀ s h tr tr2 raw h2 m c1 c2,
      env.readMsgInsecure tr = .ok (tr2, raw) →
      engineReadMessage env h raw = .ok (h2, m, some c1, some c2) →
      readHandshakeMessage env s h tr =
        ⟨[Event.recv], setCipherStates s c1 c2, h2, tr2, .ok m⟩) ∧
    (∀ s h tr tr2 raw h2 m,
      env.readMsgInsecure tr = .ok (tr2, raw) →
      engineReadMessage env h raw = .ok (h2, m, none, none) →
      readHandshakeMessage env s h tr = ⟨[Event.recv], s, h2, tr2, .ok m⟩) := by
  refine ⟨?_, ?_, ?_, ?_, ?_, ?_⟩
  · intro s c1 c2
    cases hini : s.initiator <;> simp [setCipherStates, hini]
  · intro s h tr p h2 buf c1 c2 tr2 hw hwi
    unfold sendHandshakeMessage
    rw [hw]
    dsimp only
    rw [hwi]
  · intro s h tr p h2 buf tr2 hw hwi
    unfold sendHandshakeMessage
    rw [hw]
    dsimp only
    rw [hwi]
  · intro s h tr p e hw
    unfold sendHandshakeMessage
    rw [hw]
  · intro s h tr tr2 raw h2 m c1 c2 hr hrm
    unfold readHandshakeMessage
    rw [hr]
    dsimp only
    rw [hrm]
  · intro s h tr tr2 raw h2 m hr hrm
    unfold readHandshakeMessage
    rw [hr]
    dsimp only
    rw [hrm]

/-- Witness for C2: at the final message the engine returns both states and
the responder-side... (here: an initiator handle) assignment happens. -/
theorem C2_cipher_state_assignment_witness :
    sendHandshakeMessage okEnv respSession ⟨true, 2⟩ 0 [1] =
      ⟨[Event.send [1]], setCipherStates respSession ⟨10⟩ ⟨20⟩, ⟨true, 3⟩, 0, none⟩ :=
  (C2_cipher_state_assignment okEnv).2.1 respSession ⟨true, 2⟩ 0 [1] ⟨true, 3⟩ [1]
    ⟨10⟩ ⟨20⟩ 0 rfl rfl

/-- C3: the byte string signed during payload generation is exactly
`payloadSigPrefix ‖ localStatic.Public`, and the byte string checked during
payload verification is exactly `payloadSigPrefix ‖ remoteStatic`, with the
same prefix constant on both sides. -/
theorem C3_signed_and_verified_bytes (env : Env) (s : secureSession) (kp : DHKey)
    (payload rs : Bytes) :
    (∀ m, Event.sign m ∈ (generateHandshakePayload env s kp).evs →
      m = payloadSigPrefixBytes ++ kp.Public) ∧
    (∀ m, Event.verifySig m ∈ (handleRemoteHandshakePayload env s payload rs).evs →
      m = payloadSigPrefixBytes ++ rs) := by
  constructor
  · intro m hm
    rcases gen_cases env s kp with ⟨e, hb, hgen⟩ | ⟨e, hsg, hgen⟩ | ⟨raw, sg, hb, hsg, hgen⟩
    · rw [hgen] at hm
      simp at hm
    · rw [hgen] at hm
      simp at hm
      exact hm
    · rw [hgen] at hm
      simp at hm
      exact hm
  · intro m hm
    rcases handle_cases env s payload rs with ⟨e, hH⟩ | ⟨e, hH⟩ |
      ⟨nhp, pk, idv, hu, hk, hid, hmis, hv, hH⟩
    · rw [hH] at hm
      simp at hm
    · rw [hH] at hm
      simp at hm
      exact hm
    · rw [hH] at hm
      simp at hm
      exact hm

/-- Witness for C3: in the concrete environment a sign event occurs and its
message is the prefix followed by the ephemeral static public key. -/
theorem C3_signed_and_verified_bytes_witness :
    payloadSigPrefixBytes ++ [2] = payloadSigPrefixBytes ++ ([2] : Bytes) :=
  (C3_signed_and_verified_bytes okEnv respSession ⟨[1], [2]⟩ [0] [9]).1
    (payloadSigPrefixBytes ++ [2]) (by decide)

/-- C4: for an initiator with a supplied expected remote peer id, a derived
peer id that differs makes verification fail with the identity-mismatch
error, after peer-id derivation and before any signature verification (the
trace contains no verification event), leaving the session unchanged. -/
theorem C4_identity_mismatch (env : Env) (s : secureSession) (payload rs : Bytes)
    (nhp : NoiseHandshakePayload) (pk : PubKey) (idv : PeerID)
    (hinit : s.initiator = true) (_hsup : s.remoteID ≠ [])
    (hu : env.protoUnmarshal payload = .ok nhp)
    (hk : env.unmarshalPublicKey nhp.identityKey = .ok pk)
    (hid : env.idFromPublicKey pk = .ok idv)
    (hne : idv ≠ s.remoteID) :
    handleRemoteHandshakePayload env s payload rs =
      ⟨[Event.handleRemote rs], s, some (.peerIDMismatch s.remoteID idv)⟩ := by
  unfold handleRemoteHandshakePayload
  rw [hu]
  dsimp only
  rw [hk]
  dsimp only
  rw [hid]
  dsimp only
  rw [if_pos ⟨hinit, Ne.symm hne⟩]

/-- Witness for C4: a pinned initiator expecting `[3]` rejects a remote
whose derived peer id is `[9]` with the mismatch error. -/
theorem C4_identity_mismatch_witness :
    handleRemoteHandshakePayload envMismatch initSessionKnown [0] [5] =
      ⟨[Event.handleRemote [5]], initSessionKnown, some (.peerIDMismatch [3] [9])⟩ :=
  C4_identity_mismatch envMismatch initSessionKnown [0] [5] ⟨[4], [6]⟩ 5 [9]
    rfl (by decide) rfl rfl rfl (by decide)

/-- C5: contrary to the claim, an initiator session with NO expected remote
peer id (the zero value `[]`) aborts with the identity-mismatch error even
though decoding, key unmarshalling, peer-id derivation and signature
verification would all succeed: the code guards the check with
`s.initiator` alone, not with "an expectation was supplied". -/
theorem C5_unpinned_initiator_rejected :
    initSessionNoExp.initiator = true ∧ initSessionNoExp.remoteID = [] ∧
    okEnv.verify 5 (payloadSigPrefixBytes ++ [102]) [6] = .ok true ∧
    (runHandshake okEnv initSessionNoExp 0).err = some (Err.peerIDMismatch [] [3]) ∧
    (runHandshake okEnv initSessionNoExp 0).sess.enc = none :=
  ⟨rfl, rfl, rfl, rfl, rfl⟩

/-- Counterexample for C6: a responder whose message-3 read succeeds (the
engine hands over both cipher states) but whose payload verification fails
returns an error with the cipher states populated — not "all outcome fields
unpopulated" as claimed. -/
theorem C6_abort_counterexample :
    (runHandshake envBadVerify respSession 0).err = some Err.sigInvalid ∧
    (runHandshake envBadVerify respSession 0).sess.enc = some ⟨20⟩ ∧
    (runHandshake envBadVerify respSession 0).sess.dec = some ⟨10⟩ :=
  ⟨rfl, rfl, rfl⟩

/-- C6 (amended): when the orchestrator returns an error, an initiator
session keeps its cipher states unchanged (hence unpopulated when starting
fresh) and a responder session keeps its remote key and remote id
unchanged; but the other fields may have been populated before the failure
point (responder cipher states after the final read, initiator remote key
after message-2 verification). -/
theorem C6_abort_state (env : Env) (s : secureSession) (tr : TR) :
    (runHandshake env s tr).err ≠ none →
    ((s.initiator = true →
        (runHandshake env s tr).sess.enc = s.enc ∧
        (runHandshake env s tr).sess.dec = s.dec) ∧
     (s.initiator = false →
        (runHandshake env s tr).sess.remoteKey = s.remoteKey ∧
        (runHandshake env s tr).sess.remoteID = s.remoteID)) :=
  runHandshake_abort env s tr

/-- Witness for C6 (amended): the failing responder run leaves remote key
and remote id untouched. -/
theorem C6_abort_state_witness :
    (runHandshake envBadVerify respSession 0).sess.remoteKey = respSession.remoteKey ∧
    (runHandshake envBadVerify respSession 0).sess.remoteID = respSession.remoteID :=
  (C6_abort_state envBadVerify respSession 0 (by decide)).2 rfl

/-- Counterexample for C7: assigning cipher states a second time does not
fail — it silently overwrites — and re-running the orchestrator on a
session that already completed succeeds again, overwriting the previous
cipher state (`10` becomes `20`). -/
theorem C7_reinvoke_counterexample :
    (setCipherStates (setCipherStates respSession ⟨1⟩ ⟨2⟩) ⟨3⟩ ⟨4⟩).enc = some ⟨4⟩ ∧
    (setCipherStates (setCipherStates respSession ⟨1⟩ ⟨2⟩) ⟨3⟩ ⟨4⟩).dec = some ⟨3⟩ ∧
    (runHandshake okEnv completedResp 0).err = none ∧
    (runHandshake okEnv completedResp 0).sess.enc = some ⟨20⟩ ∧
    completedResp.enc = some ⟨10⟩ :=
  ⟨rfl, rfl, rfl, rfl, rfl⟩

/-- C7 (amended): neither `setCipherStates` nor `runHandshake` guards
against re-invocation: a second assignment silently overwrites the first,
and re-running the orchestrator on a completed session repeats the whole
exchange and succeeds, overwriting the session's outcome fields. -/
theorem C7_reinvoke_overwrites :
    (∀ s a b c d, setCipherStates (setCipherStates s a b) c d = setCipherStates s c d) ∧
    (runHandshake okEnv completedResp 0).err = none ∧
    (runHandshake okEnv completedResp 0).sess.enc = some ⟨20⟩ := by
  refine ⟨?_, rfl, rfl⟩
  intro s a b c d
  cases s with
  | mk i lk lp rid rk e2 d2 => cases i <;> rfl

/-- C8: every run of the orchestrator invokes ephemeral key generation
exactly once, as the very first recorded action — before any message is
sent or received — on every code path, for every environment. -/
theorem C8_single_ephemeral_keypair (env : Env) (s : secureSession) (tr : TR) :
    ∃ rest, (runHandshake env s tr).evs = Event.genKeypair :: rest ∧
      Event.genKeypair ∉ rest :=
  (runHandshake_trace env s tr).1

/-- C9: payload generation fails exactly when identity-key serialization or
signing fails, wrapping the collaborator's error unchanged as the cause; in
every other case it returns the marshalled
`{identity key bytes, signature}` record. -/
theorem C9_payload_generation_errors (env : Env) (s : secureSession) (kp : DHKey) :
    (∀ e, env.pubKeyBytes s.localPub = .error e →
      (generateHandshakePayload env s kp).res =
        .error (.wrap "error serializing libp2p identity key" e)) ∧
    (∀ raw e, env.pubKeyBytes s.localPub = .ok raw →
      env.sign s.localKey (payloadSigPrefixBytes ++ kp.Public) = .error e →
      (generateHandshakePayload env s kp).res =
        .error (.wrap "error sigining handshake payload" e)) ∧
    (∀ raw sg, env.pubKeyBytes s.localPub = .ok raw →
      env.sign s.localKey (payloadSigPrefixBytes ++ kp.Public) = .ok sg →
      (generateHandshakePayload env s kp).res = .ok (env.protoMarshal ⟨raw, sg⟩)) := by
  refine ⟨?_, ?_, ?_⟩
  · intro e he
    unfold generateHandshakePayload
    rw [he]
  · intro raw e hr he
    unfold generateHandshakePayload
    rw [hr]
    dsimp only
    rw [he]
  · intro raw sg hr hsg2
    unfold generateHandshakePayload
    rw [hr]
    dsimp only
    rw [hsg2]

/-- Witness for C9: a failing signer's error is wrapped unchanged. -/
theorem C9_payload_generation_errors_witness :
    (generateHandshakePayload envBadSign respSession ⟨[1], [2]⟩).res =
      .error (.wrap "error sigining handshake payload" (.ext 9)) :=
  (C9_payload_generation_errors envBadSign respSession ⟨[1], [2]⟩).2.1 [2] (.ext 9) rfl rfl

/-- C10: payload verification is atomic with respect to the session: on
every error return the remote peer id and remote key fields are exactly as
before the call, and on success — only after decode, key unmarshal, peer-id
derivation and a true signature verification — both are assigned. -/
theorem C10_handle_payload_atomic (env : Env) (s : secureSession) (payload rs : Bytes) :
    (∀ e, (handleRemoteHandshakePayload env s payload rs).err = some e →
      (handleRemoteHandshakePayload env s payload rs).sess.remoteID = s.remoteID ∧
      (handleRemoteHandshakePayload env s payload rs).sess.remoteKey = s.remoteKey) ∧
    ((handleRemoteHandshakePayload env s payload rs).err = none →
      ∃ nhp pk idv, env.protoUnmarshal payload = .ok nhp ∧
        env.unmarshalPublicKey nhp.identityKey = .ok pk ∧
        env.idFromPublicKey pk = .ok idv ∧
        env.verify pk (payloadSigPrefixBytes ++ rs) nhp.identitySig = .ok true ∧
        (handleRemoteHandshakePayload env s payload rs).sess =
          { s with remoteID := idv, remoteKey := some pk }) := by
  rcases handle_cases env s payload rs with ⟨e, hH⟩ | ⟨e, hH⟩ |
    ⟨nhp, pk, idv, hu, hk, hid, hmis, hv, hH⟩ <;> rw [hH]
  · exact ⟨fun _ _ => ⟨rfl, rfl⟩, fun he => nomatch he⟩
  · exact ⟨fun _ _ => ⟨rfl, rfl⟩, fun he => nomatch he⟩
  · constructor
    · exact fun e he => nomatch he
    · exact fun _ => ⟨nhp, pk, idv, hu, hk, hid, hv, rfl⟩

/-- Witness for C10: a signature-invalid failure leaves the remote id and
remote key fields untouched. -/
theorem C10_handle_payload_atomic_witness :
    (handleRemoteHandshakePayload envBadVerify respSession [0] [9]).sess.remoteID =
      respSession.remoteID ∧
    (handleRemoteHandshakePayload envBadVerify respSession [0] [9]).sess.remoteKey =
      respSession.remoteKey :=
  (C10_handle_payload_atomic envBadVerify respSession [0] [9]).1 Err.sigInvalid rfl

end Noise
